import Mathlib

/-!
Verification of the collection catalog and paginated query subsystem of the
libstix2 sqlite3 datastore (`sqlite3/t_collections.go`-style file given as
`src/unnamed/part_000`).

The Go code is shallowly embedded. Go `int` becomes `Int`; Go defines signed
overflow as 64-bit two's-complement wraparound, so where wraparound is
reachable inside a claim's quantified range every arithmetic step is wrapped
explicitly by `wrap64` (reduction modulo `2^64` into `[-2^63, 2^63)`):
`processRangeValues64` is that faithful embedding of the range resolver, and
the wrap-free reading `processRangeValues` is proved to agree with it on all
inputs whose arithmetic stays in range (`processRangeValues64_eq_unbounded`) —
the query-pipeline theorems only use the resolver under hypotheses, or on
concrete inputs, that keep its arithmetic in range. Fallible operations
return `Except`, database rows are explicit lists passed as inputs, and the
external object store / SQL execution boundaries are injected as function
parameters.
-/

namespace LibStix2

/-- Equality on `Except` results is decidable when it is on both components;
used to evaluate the embedded operations on concrete inputs. -/
instance {ε α : Type} [DecidableEq ε] [DecidableEq α] : DecidableEq (Except ε α) := fun x y =>
  match x, y with
  | .error a, .error b =>
      if h : a = b then .isTrue (by rw [h])
      else .isFalse (by intro hc; cases hc; exact h rfl)
  | .ok a, .ok b =>
      if h : a = b then .isTrue (by rw [h])
      else .isFalse (by intro hc; cases hc; exact h rfl)
  | .error _, .ok _ => .isFalse (by intro hc; cases hc)
  | .ok _, .error _ => .isFalse (by intro hc; cases hc)

/-- The three error cases produced by `processRangeValues`, in source order:
`"the starting value can not be negative"`,
`"the starting range value is larger than the ending range value"`,
`"the starting range value is out of scope"`. -/
inductive RangeError where
  | negativeStart
  | startAfterEnd
  | outOfScope
deriving DecidableEq, Repr

/-- Wrap-free reading of
`processRangeValues(first, last, max, size int) (int, int, error)`, line for
line: the three guard checks, the zero/zero defaulting branch
(`last == 0 && first == 0 && max != 0`), the inclusive increment, the clamp
to `size`, and the `max`-truncation (`max != 0 && (last-first) > max`) — with
the arithmetic read over unbounded `Int`. The faithful 64-bit embedding,
whose arithmetic wraps as Go's does, is `processRangeValues64`; the two agree
on every input whose arithmetic stays in `[-2^63, 2^63)`
(`processRangeValues64_eq_unbounded`). -/
def processRangeValues (first last mx size : Int) : Except RangeError (Int × Int) :=
  if first < 0 then .error .negativeStart
  else if first > last then .error .startAfterEnd
  else if first ≥ size then .error .outOfScope
  else
    let last1 := if last = 0 ∧ first = 0 ∧ mx ≠ 0 then first + mx else last + 1
    let last2 := if last1 > size then size else last1
    let last3 := if mx ≠ 0 ∧ last2 - first > mx then first + mx else last2
    .ok (first, last3)

/-- The range-resolution algorithm as the specification words it: the
defaulting branch and the truncation are guarded by `max > 0` (the spec never
speaks of negative `max`), rather than the code's `max != 0`. -/
def specResolve (first last mx size : Int) : Except RangeError (Int × Int) :=
  if first < 0 then .error .negativeStart
  else if first > last then .error .startAfterEnd
  else if first ≥ size then .error .outOfScope
  else
    let last1 := if last = 0 ∧ first = 0 ∧ mx > 0 then first + mx else last + 1
    let last2 := if last1 > size then size else last1
    let last3 := if mx > 0 ∧ last2 - first > mx then first + mx else last2
    .ok (first, last3)

/-- Two's-complement wraparound of Go's 64-bit `int`: the representative of
`n` modulo `2^64` lying in `[-2^63, 2^63)`. Go defines signed-integer
overflow as exactly this wraparound. -/
def wrap64 (n : Int) : Int := (n + 2^63) % 2^64 - 2^63

/-- Faithful embedding of `processRangeValues` over Go's 64-bit `int`:
identical to the wrap-free reading except that every arithmetic step of the
source (`first + max`, `last++`, `last - first`) is wrapped by `wrap64`, as
Go wraps it; comparisons cannot overflow. In particular at
`last = 2^63 - 1` the inclusive-end increment `last++` wraps to `-2^63`. -/
def processRangeValues64 (first last mx size : Int) : Except RangeError (Int × Int) :=
  if first < 0 then .error .negativeStart
  else if first > last then .error .startAfterEnd
  else if first ≥ size then .error .outOfScope
  else
    let last1 := if last = 0 ∧ first = 0 ∧ mx ≠ 0 then wrap64 (first + mx)
      else wrap64 (last + 1)
    let last2 := if last1 > size then size else last1
    let last3 := if mx ≠ 0 ∧ wrap64 (last2 - first) > mx then wrap64 (first + mx)
      else last2
    .ok (first, last3)

/-- One row scanned from the collection-content query, in the column order of
`rows.Scan(&dateAdded, &stixid, &modified, &specVersion)`. -/
structure Row where
  dateAdded : String
  stixid : String
  modified : String
  specVersion : String
deriving DecidableEq, Repr

/-- A default row, standing for the Go zero value used only to express the
unguarded `slice[0]` / `slice[len-1]` accesses (which are proved in-bounds). -/
def Row.zero : Row := ⟨"", "", "", ""⟩

/-- One manifest entry as built by
`manifest.CreateManifestEntry(stixid, dateAdded, modified, specVersion)`.
The constructor itself lives in the `resources` package, outside the given
sources; modelled from the spec: a manifest entry is the tuple
`{id, dateAdded, version, specVersion}`. -/
structure ManifestEntry where
  ID : String
  DateAdded : String
  Modified : String
  SpecVersion : String
deriving DecidableEq, Repr

def ManifestEntry.zero : ManifestEntry := ⟨"", "", "", ""⟩

/-- Conversion applied to each scanned row by the manifest pipeline. -/
def Row.toManifestEntry (r : Row) : ManifestEntry :=
  ⟨r.stixid, r.dateAdded, r.modified, r.specVersion⟩

/-- `datastore.QueryReturnDataType`, with the fields the given sources assign
(`Size`, `DateAddedFirst`, `DateAddedLast`, `RangeBegin`, `RangeEnd`); the
struct declaration lives in the `datastore` package, outside the given
sources; modelled from the spec metadata shape
`{size, rangeBegin, rangeEnd, dateAddedFirst, dateAddedLast}`. -/
structure QueryReturnData where
  Size : Int
  DateAddedFirst : String
  DateAddedLast : String
  RangeBegin : Int
  RangeEnd : Int
deriving DecidableEq, Repr

/-- The Go zero value produced by `var metaData datastore.QueryReturnDataType`. -/
def QueryReturnData.zero : QueryReturnData := ⟨0, "", "", 0, 0⟩

/-- Go slice expression `l[first:last]` (elements at indices `first ≤ i < last`),
as used on the complete result set with the resolved window bounds. -/
def goSlice {α : Type} (l : List α) (first last : Int) : List α :=
  (l.take last.toNat).drop first.toNat

/-- Errors produced by the query pipeline: a propagated range-resolution
error, the `"no records returned"` empty-set error of `GetObjectList`, or a
propagated object-fetch error during bundle assembly. -/
inductive DataError where
  | rangeErr (e : RangeError)
  | noRecords
  | fetchErr (msg : String)
deriving DecidableEq, Repr

/-- Embedding of `GetObjectList` from the SQL scan onward: `rows` is the
complete matching set in the order the query returns it. Mirrors the source:
`metaData.Size = len(collectionRawData)`; empty check returning
`"no records returned"`; `processRangeValues(query.RangeBegin, query.RangeEnd,
query.RangeMax, metaData.Size)`; the slice `collectionRawData[first:last]`;
then `DateAddedFirst`/`DateAddedLast` from the slice ends and
`RangeBegin = first`, `RangeEnd = last - 1`. -/
def GetObjectList (rows : List Row) (rangeBegin rangeEnd rangeMax : Int) :
    Except DataError (List Row × QueryReturnData) :=
  let size : Int := rows.length
  if size = 0 then .error .noRecords
  else
    match processRangeValues rangeBegin rangeEnd rangeMax size with
    | .error e => .error (.rangeErr e)
    | .ok (first, last) =>
      let rangeRows := goSlice rows first last
      .ok (rangeRows,
        { QueryReturnData.zero with
            Size := size
            DateAddedFirst := (rangeRows.headD Row.zero).dateAdded
            DateAddedLast := (rangeRows.getLastD Row.zero).dateAdded
            RangeBegin := first
            RangeEnd := last - 1 })

/-- Embedding of `GetManifestData` from the SQL scan onward. Unlike
`GetObjectList`, the source has no empty-set check: it sets
`metaData.Size = len(manifest.Objects)` and calls `processRangeValues`
directly, then slices `manifest.Objects[first:last]` and fills only
`DateAddedFirst`/`DateAddedLast` — `RangeBegin` and `RangeEnd` are never
assigned and keep their Go zero values. -/
def GetManifestData (rows : List Row) (rangeBegin rangeEnd rangeMax : Int) :
    Except DataError (List ManifestEntry × QueryReturnData) :=
  let objects := rows.map Row.toManifestEntry
  let size : Int := objects.length
  match processRangeValues rangeBegin rangeEnd rangeMax size with
  | .error e => .error (.rangeErr e)
  | .ok (first, last) =>
    let rangeObjects := goSlice objects first last
    .ok (rangeObjects,
      { QueryReturnData.zero with
          Size := size
          DateAddedFirst := (rangeObjects.headD ManifestEntry.zero).DateAdded
          DateAddedLast := (rangeObjects.getLastD ManifestEntry.zero).DateAdded })

/-- The object-fetch loop of `GetBundle`: for each entry, in order,
`GetObject(v.STIXID, v.STIXVersion)` (the object store is injected as
`fetch`, per the spec interface `fetch(stableID, version) → payload | error`);
the first failure returns that error and no bundle, otherwise the objects are
appended in entry order. -/
def assembleObjects {Obj : Type} (fetch : String → String → Except String Obj) :
    List Row → Except String (List Obj)
  | [] => .ok []
  | v :: rest =>
    match fetch v.stixid v.modified with
    | .error e => .error e
    | .ok obj =>
      match assembleObjects fetch rest with
      | .error e => .error e
      | .ok objs => .ok (obj :: objs)

/-- Embedding of `GetBundle`: runs `GetObjectList`, propagating its error,
then fetches every entry of the returned window in order, aborting on the
first fetch failure. -/
def GetBundle {Obj : Type} (fetch : String → String → Except String Obj)
    (rows : List Row) (rangeBegin rangeEnd rangeMax : Int) :
    Except DataError (List Obj × QueryReturnData) :=
  match GetObjectList rows rangeBegin rangeEnd rangeMax with
  | .error e => .error e
  | .ok (entries, metaData) =>
    match assembleObjects fetch entries with
    | .error e => .error (.fetchErr e)
    | .ok objs => .ok (objs, metaData)

/-- Whether the media-type loop of `getCollections` records entry `i` of the
split list: the source skips it exactly when `i > 0 && mt == mediatypes[i-1]`. -/
def keepMediaType (mediatypes : List String) (i : Nat) : Prop :=
  ¬(0 < i ∧ mediatypes.getD i "" = mediatypes.getD (i - 1) "")

instance (mediatypes : List String) (i : Nat) : Decidable (keepMediaType mediatypes i) :=
  instDecidableNot

/-- The media-type reconstruction loop of `getCollections` applied to an
already-split list: iterate the indices in order, skip an entry when it equals
the immediately preceding entry, record it otherwise. -/
def addMediaTypes (mediatypes : List String) : List String :=
  ((List.range mediatypes.length).filter fun i => decide (keepMediaType mediatypes i)).map
    fun i => mediatypes.getD i ""

/-- `strings.Split(s, ",")` over the character list of `s`: maximal runs of
non-comma characters between the separators, so `n` commas yield `n + 1`
fields and the empty string yields one empty field. -/
def splitOnComma : List Char → List (List Char)
  | [] => [[]]
  | c :: rest =>
    match splitOnComma rest with
    | [] => [[]]
    | grp :: grps => if c = ',' then [] :: grp :: grps else (c :: grp) :: grps

/-- Media-type reconstruction of `getCollections` for one scanned row:
`strings.Split(mediaType, ",")` followed by the adjacent-duplicate-skipping
loop. -/
def parseMediaTypes (mediaType : String) : List String :=
  addMediaTypes ((splitOnComma mediaType.data).map String.mk)

/-- A collection as handed to `addCollection`; only the fields that method
reads. `MediaTypes` is an `Option` because the source distinguishes a `nil`
slice (`obj.MediaTypes != nil`) from an empty one. -/
structure CollectionType where
  ID : String
  Title : String
  Description : String
  CanRead : Bool
  CanWrite : Bool
  MediaTypes : Option (List String)
deriving DecidableEq, Repr

/-- One row of the collections table as inserted by `addCollection`
(`dateAdded, id, title, description, canRead, canWrite`). -/
structure CollectionRow where
  dateAdded : String
  id : String
  title : String
  description : String
  canRead : Bool
  canWrite : Bool
deriving DecidableEq, Repr

/-- The store state touched by `addCollection`: the collection rows and the
media-type rows (`collection id, media value`), each in insertion order. -/
structure DBState where
  collectionRows : List CollectionRow
  mediaRows : List (String × Int)
deriving DecidableEq, Repr

/-- The `mediavalue` computed inside the media-type insertion loop: `1` for
`"application/vnd.oasis.stix+json"`, `0` otherwise. -/
def mediaVal (media : String) : Int :=
  if media = "application/vnd.oasis.stix+json" then 1 else 0

/-- The media-type insertion loop of `addCollection`, with the outcome of each
`ds.DB.Exec` injected as `mediaErr k` (the error, if any, of the `k`-th media
insert). A failing exec inserts nothing and the method returns its error at
once; a successful one appends the `(collection id, mediavalue)` row. -/
def insertMediaTypes (mediaErr : Nat → Option String) (collID : String) :
    Nat → List String → DBState → DBState × Option String
  | _, [], db => (db, none)
  | k, media :: rest, db =>
    match mediaErr k with
    | some e => (db, some e)
    | none =>
      insertMediaTypes mediaErr collID (k + 1) rest
        { db with mediaRows := db.mediaRows ++ [(collID, mediaVal media)] }

/-- Embedding of `addCollection`: the base-row `Exec` (outcome injected as
`baseErr`) inserts the collection row stamped `dateAdded`; on its failure
nothing is inserted and the error is returned. Then, when `MediaTypes` is
non-nil, each media type is inserted in order by `insertMediaTypes`. No
inserted row is ever removed on a later failure. -/
def addCollection (dateAdded : String) (baseErr : Option String)
    (mediaErr : Nat → Option String) (obj : CollectionType) (db : DBState) :
    DBState × Option String :=
  match baseErr with
  | some e => (db, some e)
  | none =>
    let db1 := { db with
      collectionRows := db.collectionRows ++
        [⟨dateAdded, obj.ID, obj.Title, obj.Description, obj.CanRead, obj.CanWrite⟩] }
    match obj.MediaTypes with
    | none => (db1, none)
    | some medias => insertMediaTypes mediaErr obj.ID 0 medias db1

/-- Skipping of adjacent duplicates, worded as the spec words it: an entry is
dropped exactly when it equals the immediately preceding entry of the split
list; `prev` is that preceding entry. -/
def collapseFrom (prev : String) : List String → List String
  | [] => []
  | a :: rest => if a = prev then collapseFrom a rest else a :: collapseFrom a rest

/-- Spec-level description of the media-type loop: the first entry is always
recorded, every later entry is recorded unless it equals its predecessor. -/
def collapseAdjacent : List String → List String
  | [] => []
  | a :: rest => a :: collapseFrom a rest

/-- Three concrete scanned rows used to exercise the query pipeline. -/
def rows3 : List Row :=
  [⟨"d1", "i1", "m1", "v1"⟩, ⟨"d2", "i2", "m2", "v2"⟩, ⟨"d3", "i3", "m3", "v3"⟩]

/-- Ten concrete scanned rows with strictly increasing added-timestamps. -/
def rows10 : List Row :=
  [⟨"d00", "i0", "m0", "v"⟩, ⟨"d01", "i1", "m1", "v"⟩, ⟨"d02", "i2", "m2", "v"⟩,
   ⟨"d03", "i3", "m3", "v"⟩, ⟨"d04", "i4", "m4", "v"⟩, ⟨"d05", "i5", "m5", "v"⟩,
   ⟨"d06", "i6", "m6", "v"⟩, ⟨"d07", "i7", "m7", "v"⟩, ⟨"d08", "i8", "m8", "v"⟩,
   ⟨"d09", "i9", "m9", "v"⟩]

/-- A concrete object store: fetching stable ID `"i2"` fails, every other
fetch returns a payload naming the requested ID and version. -/
def fetchDemo : String → String → Except String String := fun stixid modified =>
  if stixid = "i2" then .error "object not found" else .ok (stixid ++ "/" ++ modified)

/-- A concrete media-type `Exec` outcome: the second insert (index 1) fails,
all others succeed. -/
def mediaErrDemo : Nat → Option String := fun k =>
  if k = 1 then some "database execution error inserting collection media type" else none

/-- A concrete collection with three declared media types. -/
def collDemo : CollectionType :=
  ⟨"c1", "Title", "Descr", true, false,
   some ["text/plain", "application/vnd.oasis.stix+json", "text/xml"]⟩

/-- The exclusive window end `processRangeValues` computes once its three
guards have passed: the defaulting branch, the clamp to `size`, and the
`max`-truncation, exactly as in the source. -/
def resolvedEnd (first last mx size : Int) : Int :=
  let last1 := if last = 0 ∧ first = 0 ∧ mx ≠ 0 then first + mx else last + 1
  let last2 := if last1 > size then size else last1
  if mx ≠ 0 ∧ last2 - first > mx then first + mx else last2

theorem processRangeValues_eq_ok (first last mx size : Int)
    (h1 : 0 ≤ first) (h2 : first ≤ last) (h3 : first < size) :
    processRangeValues first last mx size = .ok (first, resolvedEnd first last mx size) := by
  unfold processRangeValues resolvedEnd
  rw [if_neg (by omega), if_neg (by omega), if_neg (by omega)]

theorem processRangeValues_ok_cases {first last mx size f l : Int}
    (h : processRangeValues first last mx size = .ok (f, l)) :
    0 ≤ first ∧ first ≤ last ∧ first < size ∧ f = first ∧
      l = resolvedEnd first last mx size := by
  by_cases h1 : first < 0
  · rw [processRangeValues, if_pos h1] at h; exact Except.noConfusion h
  by_cases h2 : first > last
  · rw [processRangeValues, if_neg h1, if_pos h2] at h; exact Except.noConfusion h
  by_cases h3 : first ≥ size
  · rw [processRangeValues, if_neg h1, if_neg h2, if_pos h3] at h
    exact Except.noConfusion h
  rw [processRangeValues_eq_ok first last mx size (by omega) (by omega) (by omega)] at h
  simp only [Except.ok.injEq, Prod.mk.injEq] at h
  exact ⟨by omega, by omega, by omega, h.1.symm, h.2.symm⟩

theorem resolvedEnd_bounds (first last mx size : Int)
    (h2 : first ≤ last) (h3 : first < size) (hmx : 0 ≤ mx) :
    first < resolvedEnd first last mx size ∧ resolvedEnd first last mx size ≤ size := by
  simp only [resolvedEnd]
  split_ifs <;> omega

theorem resolvedEnd_le_max (first last mx size : Int) (hmx : 0 < mx) :
    resolvedEnd first last mx size - first ≤ mx := by
  simp only [resolvedEnd]
  split_ifs <;> omega

theorem processRangeValues64_eq_unbounded (first last mx size : Int)
    (hmx : 0 ≤ mx) (hmxU : mx < 2^63) (hsz : size < 2^63) (hlast : last < 2^63 - 1) :
    processRangeValues64 first last mx size = processRangeValues first last mx size := by
  simp only [processRangeValues64, processRangeValues, wrap64]
  split_ifs <;>
    first
      | rfl
      | omega
      | (refine congrArg (fun z => Except.ok ((first : Int), z)) ?_; omega)

theorem goSlice_map {α β : Type} (f : α → β) (l : List α) (a b : Int) :
    goSlice (l.map f) a b = (goSlice l a b).map f := by
  simp [goSlice]

theorem headD_map {α β : Type} (f : α → β) (l : List α) (d : α) :
    (l.map f).headD (f d) = f (l.headD d) := by
  cases l <;> rfl

theorem getLastD_map {α β : Type} (f : α → β) (d : α) :
    ∀ l : List α, (l.map f).getLastD (f d) = f (l.getLastD d)
  | [] => rfl
  | a :: t => by
    simp only [List.map_cons, List.getLastD_cons]
    exact getLastD_map f a t

theorem processRangeValues_size_zero (b e m : Int) :
    processRangeValues b e m 0 =
      .error (if b < 0 then .negativeStart
        else if b > e then .startAfterEnd else .outOfScope) := by
  unfold processRangeValues
  split_ifs <;> first | rfl | (exfalso; omega)

theorem GetObjectList_eq_ok (rows : List Row) (b e m f l : Int)
    (hne : rows ≠ [])
    (hpr : processRangeValues b e m rows.length = .ok (f, l)) :
    GetObjectList rows b e m = .ok (goSlice rows f l,
      { Size := (rows.length : Int),
        DateAddedFirst := ((goSlice rows f l).headD Row.zero).dateAdded,
        DateAddedLast := ((goSlice rows f l).getLastD Row.zero).dateAdded,
        RangeBegin := f, RangeEnd := l - 1 }) := by
  have h0 : ((rows.length : Int)) ≠ 0 := by
    simpa using fun hz => hne (List.length_eq_zero.mp hz)
  unfold GetObjectList
  rw [if_neg h0, hpr]

theorem GetObjectList_ok_elim {rows : List Row} {b e m : Int}
    {rowsW : List Row} {md : QueryReturnData}
    (h : GetObjectList rows b e m = .ok (rowsW, md)) :
    ∃ f l, rows ≠ [] ∧ processRangeValues b e m rows.length = .ok (f, l) ∧
      rowsW = goSlice rows f l ∧
      md = { Size := (rows.length : Int),
             DateAddedFirst := ((goSlice rows f l).headD Row.zero).dateAdded,
             DateAddedLast := ((goSlice rows f l).getLastD Row.zero).dateAdded,
             RangeBegin := f, RangeEnd := l - 1 } := by
  unfold GetObjectList at h
  by_cases h0 : ((rows.length : Int)) = 0
  · rw [if_pos h0] at h; exact Except.noConfusion h
  rw [if_neg h0] at h
  cases hpr : processRangeValues b e m (rows.length : Int) with
  | error err => rw [hpr] at h; exact Except.noConfusion h
  | ok fl =>
    obtain ⟨f, l⟩ := fl
    rw [hpr] at h
    simp only [Except.ok.injEq, Prod.mk.injEq] at h
    refine ⟨f, l, ?_, rfl, h.1.symm, h.2.symm⟩
    intro hnil
    rw [hnil] at h0
    exact h0 rfl

theorem GetManifestData_eq_ok (rows : List Row) (b e m f l : Int)
    (hpr : processRangeValues b e m rows.length = .ok (f, l)) :
    GetManifestData rows b e m = .ok ((goSlice rows f l).map Row.toManifestEntry,
      { Size := (rows.length : Int),
        DateAddedFirst := ((goSlice rows f l).headD Row.zero).dateAdded,
        DateAddedLast := ((goSlice rows f l).getLastD Row.zero).dateAdded,
        RangeBegin := 0, RangeEnd := 0 }) := by
  unfold GetManifestData
  simp only [List.length_map]
  rw [hpr]
  dsimp only
  rw [goSlice_map, show ManifestEntry.zero = Row.toManifestEntry Row.zero from rfl,
    headD_map, getLastD_map]
  rfl

/-- On inputs passing the validity checks and with a nonnegative maximum, the
wrap-free reading of the range resolver computes the spec's algorithm: under
`0 ≤ max` the code's `max != 0` tests coincide with the spec's `max > 0`. -/
theorem processRangeValues_specResolve_agree_unbounded :
    ∀ first last mx size : Int, 0 ≤ mx → 0 ≤ first → first ≤ last → first < size →
      processRangeValues first last mx size = specResolve first last mx size := by
  intro first last mx size hmx h1 h2 h3
  have hiff : (mx ≠ 0) = (mx > 0) := propext (by constructor <;> intro h <;> omega)
  simp only [processRangeValues, specResolve, hiff]

/-- C1 counterexample: two inputs passing the validity checks where the code
does not return the spec-algorithm's window. At `(0, 0, -1, 1)` the code's
`max != 0` test takes the defaulting path and yields `(0, -1)` where the
spec's `max > 0` algorithm yields `(0, 1)`. At `(0, 2^63 - 1, 0, 5)` — checks
pass and `max = 0 ≥ 0` — Go's `last++` wraps to `-2^63`, so the code returns
`(0, -2^63)` without error where the spec's algorithm yields `(0, 5)`. -/
theorem processRangeValues64_specResolve_mismatch :
    processRangeValues64 0 0 (-1) 1 = .ok (0, -1) ∧
    specResolve 0 0 (-1) 1 = .ok (0, 1) ∧
    (0:Int) ≤ 0 ∧ (0:Int) < 5 ∧ (0:Int) ≤ 2^63 - 1 ∧
    processRangeValues64 0 (2^63 - 1) 0 5 = .ok (0, -(2^63)) ∧
    specResolve 0 (2^63 - 1) 0 5 = .ok (0, 5) ∧
    processRangeValues64 0 (2^63 - 1) 0 5 ≠ specResolve 0 (2^63 - 1) 0 5 := by decide

/-- C1 (amended: restricted to `0 ≤ max`, and to requests whose source
arithmetic cannot wrap — `last < 2^63 - 1` so that the inclusive-end
increment stays in range, with `max` and `size` representable 64-bit values —
both restrictions forced by the counterexamples): for every input passing the
validity checks, the faithful 64-bit `processRangeValues` returns the window
given by the spec's algorithm `specResolve`, and the three quoted evaluations
hold: `(0,0,5,12) ↦ (0,5)`, `(2,4,0,10) ↦ (2,5)`, `(2,9,3,10) ↦ (2,5)`. -/
theorem processRangeValues64_matches_specResolve :
    (∀ first last mx size : Int, 0 ≤ mx → mx < 2^63 → 0 ≤ first → first ≤ last →
      first < size → size < 2^63 → last < 2^63 - 1 →
      processRangeValues64 first last mx size = specResolve first last mx size) ∧
    processRangeValues64 0 0 5 12 = .ok (0, 5) ∧
    processRangeValues64 2 4 0 10 = .ok (2, 5) ∧
    processRangeValues64 2 9 3 10 = .ok (2, 5) := by
  refine ⟨?_, by decide, by decide, by decide⟩
  intro first last mx size hmx hmxU h1 h2 h3 hsz hlast
  rw [processRangeValues64_eq_unbounded first last mx size hmx hmxU hsz hlast]
  exact processRangeValues_specResolve_agree_unbounded first last mx size hmx h1 h2 h3

/-- C1 witness: the general part of the theorem applied at the concrete valid
input `(3, 7, 2, 20)`. -/
theorem processRangeValues64_matches_specResolve_witness :
    processRangeValues64 3 7 2 20 = specResolve 3 7 2 20 :=
  processRangeValues64_matches_specResolve.1 3 7 2 20
    (by decide) (by decide) (by decide) (by decide) (by decide) (by decide) (by decide)

/-- C2: for every in-range request (`0 < size`, `0 ≤ first ≤ last < size`)
and nonnegative maximum, `processRangeValues` succeeds, the returned window
has length at most `max` whenever `max > 0`, and its exclusive end does not
exceed `size`. -/
theorem processRangeValues_window_bounded (first last mx size : Int)
    (_hsize : 0 < size) (h1 : 0 ≤ first) (h2 : first ≤ last) (h3 : last < size)
    (hmx : 0 ≤ mx) :
    processRangeValues first last mx size = .ok (first, resolvedEnd first last mx size) ∧
    (0 < mx → resolvedEnd first last mx size - first ≤ mx) ∧
    resolvedEnd first last mx size ≤ size :=
  ⟨processRangeValues_eq_ok first last mx size h1 h2 (by omega),
   fun h => resolvedEnd_le_max first last mx size h,
   (resolvedEnd_bounds first last mx size h2 (by omega) hmx).2⟩

/-- C2 witness: the theorem at the concrete input `(2, 9, 3, 10)`. -/
theorem processRangeValues_window_bounded_witness :
    processRangeValues 2 9 3 10 = .ok (2, resolvedEnd 2 9 3 10) ∧
    ((0:Int) < 3 → resolvedEnd 2 9 3 10 - 2 ≤ 3) ∧
    resolvedEnd 2 9 3 10 ≤ 10 :=
  processRangeValues_window_bounded 2 9 3 10
    (by decide) (by decide) (by decide) (by decide) (by decide)

/-- C3 counterexample: at `(first, last, max, size) = (5, 3, 0, 2)` we have
`first ≥ 0` and `first ≥ size`, yet `processRangeValues` returns the
malformed-ordering error (`first > last` is checked earlier in the source),
not the out-of-scope error the claim requires. -/
theorem processRangeValues_outOfScope_mismatch :
    (0:Int) ≤ 5 ∧ (2:Int) ≤ 5 ∧
    processRangeValues 5 3 0 2 = .error .startAfterEnd ∧
    processRangeValues 5 3 0 2 ≠ .error .outOfScope := by decide

/-- C3 (amended: additionally requiring `first ≤ last`, as the counterexample
forces): whenever `0 ≤ first`, `first ≤ last` and `first ≥ size`,
`processRangeValues` returns exactly the out-of-scope error. -/
theorem processRangeValues_outOfScope (first last mx size : Int)
    (h1 : 0 ≤ first) (h2 : first ≤ last) (h3 : size ≤ first) :
    processRangeValues first last mx size = .error .outOfScope := by
  unfold processRangeValues
  rw [if_neg (by omega), if_neg (by omega), if_pos (by omega)]

/-- C3 witness: the amended theorem at the concrete input `(5, 6, 7, 2)`. -/
theorem processRangeValues_outOfScope_witness :
    processRangeValues 5 6 7 2 = .error .outOfScope :=
  processRangeValues_outOfScope 5 6 7 2 (by decide) (by decide) (by decide)

/-- Window bounds and slice nonemptiness for the wrap-free reading of the
range resolver: with a nonnegative maximum, every window it returns without
error satisfies `0 ≤ first < last ≤ size` and yields a nonempty slice. -/
theorem processRangeValues_window_nonempty_unbounded (rows : List Row)
    (first last mx size f l : Int) (hmx : 0 ≤ mx)
    (hlen : (rows.length : Int) = size)
    (h : processRangeValues first last mx size = .ok (f, l)) :
    0 ≤ f ∧ f < l ∧ l ≤ size ∧ goSlice rows f l ≠ [] := by
  obtain ⟨h1, h2, h3, hf, hl⟩ := processRangeValues_ok_cases h
  obtain ⟨hb1, hb2⟩ := resolvedEnd_bounds first last mx size h2 h3 hmx
  subst hf hl
  refine ⟨h1, hb1, hb2, ?_⟩
  intro hc
  have hlen2 := congrArg List.length hc
  simp only [goSlice, List.length_drop, List.length_take, List.length_nil] at hlen2
  omega

/-- C10 counterexample: error-free returns of the faithful 64-bit resolver
that violate the claimed window safety, both with `max ≥ 0`. At
`(0, 2^63 - 1, 0, 5)` Go's `last++` wraps and the code returns the window
`(0, -2^63)` without error — `first < last` fails, and the caller's slice
`[0:-2^63]` is out of bounds (a Go slice-bounds panic). At
`(1, 2^63 - 1, 100, 5)` the code returns `(1, 101)` without error with
`101 > size = 5`, so the slice `[1:101]` is out of bounds as well. -/
theorem processRangeValues64_window_unsafe :
    (0:Int) ≤ 0 ∧
    processRangeValues64 0 (2^63 - 1) 0 5 = .ok (0, -(2^63)) ∧
    ¬((0:Int) < -(2^63)) ∧
    (0:Int) ≤ 100 ∧
    processRangeValues64 1 (2^63 - 1) 100 5 = .ok (1, 101) ∧
    ¬((101:Int) ≤ 5) := by decide

/-- C10 (amended: restricted to requests whose inclusive-end increment cannot
wrap — `last < 2^63 - 1`, with `max` and `size` representable 64-bit values —
as the counterexample forces): with a nonnegative maximum, every window the
faithful 64-bit `processRangeValues` returns without error satisfies
`0 ≤ first < last ≤ size`, and the Go slice of any dataset of length `size`
at that window is nonempty, so the unguarded first/last accesses of
`GetObjectList` and `GetManifestData` are in bounds. -/
theorem processRangeValues64_window_nonempty (rows : List Row)
    (first last mx size f l : Int) (hmx : 0 ≤ mx) (hmxU : mx < 2^63)
    (hsz : size < 2^63) (hlast : last < 2^63 - 1)
    (hlen : (rows.length : Int) = size)
    (h : processRangeValues64 first last mx size = .ok (f, l)) :
    0 ≤ f ∧ f < l ∧ l ≤ size ∧ goSlice rows f l ≠ [] := by
  rw [processRangeValues64_eq_unbounded first last mx size hmx hmxU hsz hlast] at h
  exact processRangeValues_window_nonempty_unbounded rows first last mx size f l hmx hlen h

/-- C10 witness: the amended theorem at the ten-row dataset with the
default-path request `(0, 0, 4, 10)`, whose resolved window is `(0, 4)`. -/
theorem processRangeValues64_window_nonempty_witness :
    0 ≤ (0:Int) ∧ (0:Int) < 4 ∧ (4:Int) ≤ 10 ∧ goSlice rows10 0 4 ≠ [] :=
  processRangeValues64_window_nonempty rows10 0 0 4 10 0 4
    (by decide) (by decide) (by decide) (by decide) (by decide) (by decide)

/-- C4 counterexample: on an empty matching set, `GetManifestData` does not
fail with the empty-result error: it runs range resolution and returns its
out-of-scope error, while `GetObjectList` on the same input fails with
`"no records returned"` before windowing. -/
theorem GetManifestData_empty_not_noRecords :
    GetManifestData ([] : List Row) 0 0 0 = .error (.rangeErr .outOfScope) ∧
    GetManifestData ([] : List Row) 0 0 0 ≠ .error .noRecords ∧
    GetObjectList ([] : List Row) 0 0 0 = .error .noRecords := by decide

/-- C4 (amended: the pipeline of `GetManifestData` is not identical to
`GetObjectList`'s — it has no explicit empty-set check; on an empty matching
set it still fails before producing any metadata, but only because range
resolution is performed over `size = 0` and always errors, returning a range
error — never the empty-result error). -/
theorem GetManifestData_empty_fails_via_range (b e m : Int) :
    GetManifestData ([] : List Row) b e m =
      .error (.rangeErr (if b < 0 then .negativeStart
        else if b > e then .startAfterEnd else .outOfScope)) := by
  have h := processRangeValues_size_zero b e m
  unfold GetManifestData
  simp only [List.map_nil, List.length_nil, Nat.cast_zero]
  rw [h]

/-- C5 counterexample: for the three-row set and the explicit request
`first = 1, last = 2`, the resolved window is `(1, 3)` and `GetObjectList`
reports `rangeBegin = 1, rangeEnd = 2`, but `GetManifestData` reports
`rangeBegin = 0, rangeEnd = 0`: it never assigns those fields. -/
theorem GetManifestData_range_fields_not_set :
    processRangeValues 1 2 0 3 = .ok (1, 3) ∧
    Except.map (fun p => (p.2.RangeBegin, p.2.RangeEnd)) (GetObjectList rows3 1 2 0) =
      .ok (1, 2) ∧
    Except.map (fun p => (p.2.RangeBegin, p.2.RangeEnd)) (GetManifestData rows3 1 2 0) =
      .ok (0, 0) ∧
    ((0:Int), (0:Int)) ≠ ((1:Int), (2:Int)) := by decide

/-- C5 (amended: on success `GetManifestData` materializes the same sliced
window as `GetObjectList` as manifest entries and populates `size`,
`dateAddedFirst` and `dateAddedLast` with the same values, but it does not
populate `rangeBegin`/`rangeEnd`, which keep their zero values). -/
theorem GetManifestData_metadata_matches (rows : List Row) (b e m : Int)
    (rowsW : List Row) (md : QueryReturnData)
    (hO : GetObjectList rows b e m = .ok (rowsW, md)) :
    GetManifestData rows b e m = .ok (rowsW.map Row.toManifestEntry,
      { Size := md.Size, DateAddedFirst := md.DateAddedFirst,
        DateAddedLast := md.DateAddedLast, RangeBegin := 0, RangeEnd := 0 }) := by
  obtain ⟨f, l, hne, hpr, hrw, hmd⟩ := GetObjectList_ok_elim hO
  subst hrw hmd
  exact GetManifestData_eq_ok rows b e m f l hpr

/-- C5 witness: the amended theorem at the three-row set with request
`first = 1, last = 2`. -/
theorem GetManifestData_metadata_matches_witness :
    GetManifestData rows3 1 2 0 =
      .ok (([⟨"d2", "i2", "m2", "v2"⟩, ⟨"d3", "i3", "m3", "v3"⟩] : List Row).map
            Row.toManifestEntry,
        { Size := 3, DateAddedFirst := "d2", DateAddedLast := "d3",
          RangeBegin := 0, RangeEnd := 0 }) :=
  GetManifestData_metadata_matches rows3 1 2 0
    [⟨"d2", "i2", "m2", "v2"⟩, ⟨"d3", "i3", "m3", "v3"⟩]
    ⟨3, "d2", "d3", 1, 2⟩ (by decide)

/-- C6: whenever the matching set is nonempty and range resolution succeeds,
`GetObjectList` returns exactly the set sliced to the resolved window, with
`size` the pre-window count, `rangeBegin`/`rangeEnd` the inclusive window
bounds, and the date fields from the ends of the sliced window; and on the
ten-row set with `rangeMax = 4` and no explicit range, the window resolves to
`(0, 4)`, so the four earliest rows are returned with `size = 10`,
`rangeBegin = 0`, `rangeEnd = 3`. -/
theorem GetObjectList_returns_window :
    (∀ (rows : List Row) (b e m f l : Int), rows ≠ [] →
      processRangeValues b e m rows.length = .ok (f, l) →
      GetObjectList rows b e m = .ok (goSlice rows f l,
        { Size := (rows.length : Int),
          DateAddedFirst := ((goSlice rows f l).headD Row.zero).dateAdded,
          DateAddedLast := ((goSlice rows f l).getLastD Row.zero).dateAdded,
          RangeBegin := f, RangeEnd := l - 1 })) ∧
    processRangeValues 0 0 4 10 = .ok (0, 4) ∧
    rows10.take 4 = goSlice rows10 0 4 ∧
    GetObjectList rows10 0 0 4 = .ok (rows10.take 4,
      { Size := 10, DateAddedFirst := "d00", DateAddedLast := "d03",
        RangeBegin := 0, RangeEnd := 3 }) :=
  ⟨fun rows b e m f l hne hpr => GetObjectList_eq_ok rows b e m f l hne hpr,
   by decide, by decide, by decide⟩

theorem keepMediaType_one (p b : String) (t : List String) :
    keepMediaType (p :: b :: t) 1 ↔ ¬(b = p) := by
  simp [keepMediaType]

theorem keepMediaType_cons_cons (p b : String) (t : List String) (i : Nat) :
    keepMediaType (p :: b :: t) (i + 1 + 1) ↔ keepMediaType (b :: t) (i + 1) := by
  simp [keepMediaType]

theorem addMediaTypes_aux : ∀ (t : List String) (p : String),
    ((List.range t.length).filter (fun i => decide (keepMediaType (p :: t) (i + 1)))).map
      (fun i => (p :: t).getD (i + 1) "") = collapseFrom p t
  | [], _ => rfl
  | b :: t, p => by
    have hpred : ∀ i ∈ List.range t.length,
        ((fun i => decide (keepMediaType (p :: b :: t) (i + 1))) ∘ Nat.succ) i =
          (fun i => decide (keepMediaType (b :: t) (i + 1))) i := fun i _ =>
      decide_eq_decide.mpr (keepMediaType_cons_cons p b t i)
    have hmap : ∀ i ∈ (List.range t.length).filter
          (fun i => decide (keepMediaType (b :: t) (i + 1))),
        ((fun i => (p :: b :: t).getD (i + 1) "") ∘ Nat.succ) i =
          (fun i => (b :: t).getD (i + 1) "") i := fun i _ => rfl
    rw [List.length_cons, List.range_succ_eq_map, List.filter_cons, List.filter_map,
      List.filter_congr hpred]
    by_cases hbp : b = p
    · rw [if_neg (by simp [keepMediaType_one, hbp]), List.map_map,
        List.map_congr_left hmap, addMediaTypes_aux t b, collapseFrom, if_pos hbp]
    · rw [if_pos (by simp [keepMediaType_one, hbp]), List.map_cons, List.map_map,
        List.map_congr_left hmap, addMediaTypes_aux t b, collapseFrom, if_neg hbp]
      rfl

theorem addMediaTypes_eq_collapseAdjacent : ∀ l : List String,
    addMediaTypes l = collapseAdjacent l
  | [] => rfl
  | a :: t => by
    have hpred : ∀ i ∈ List.range t.length,
        ((fun i => decide (keepMediaType (a :: t) i)) ∘ Nat.succ) i =
          (fun i => decide (keepMediaType (a :: t) (i + 1))) i := fun i _ => rfl
    have hmap : ∀ i ∈ (List.range t.length).filter
          (fun i => decide (keepMediaType (a :: t) (i + 1))),
        ((fun i => (a :: t).getD i "") ∘ Nat.succ) i =
          (fun i => (a :: t).getD (i + 1) "") i := fun i _ => rfl
    unfold addMediaTypes
    rw [List.length_cons, List.range_succ_eq_map, List.filter_cons,
      if_pos (by simp [keepMediaType]), List.map_cons, List.filter_map,
      List.filter_congr hpred, List.map_map, List.map_congr_left hmap,
      addMediaTypes_aux t a]
    rfl

/-- C6 witness: the general part of the theorem at the three-row set with
request `first = 1, last = 2`, whose resolved window is `(1, 3)`. -/
theorem GetObjectList_returns_window_witness :
    GetObjectList rows3 1 2 0 = .ok (goSlice rows3 1 3,
      { Size := (rows3.length : Int),
        DateAddedFirst := ((goSlice rows3 1 3).headD Row.zero).dateAdded,
        DateAddedLast := ((goSlice rows3 1 3).getLastD Row.zero).dateAdded,
        RangeBegin := 1, RangeEnd := 3 - 1 }) :=
  GetObjectList_returns_window.1 rows3 1 2 0 1 3 (by decide) (by decide)

/-- C7: the media-type loop of `getCollections` collapses exactly the
consecutive duplicates of the delimited list — it agrees with the spec-level
adjacent collapse (first entry kept, each later entry kept iff it differs
from its immediate predecessor) on every list — and the two quoted
evaluations hold: `"a,a,b"` yields `["a","b"]` while `"a,b,a"` yields
`["a","b","a"]`. -/
theorem parseMediaTypes_adjacent_dedup :
    parseMediaTypes "a,a,b" = ["a", "b"] ∧
    parseMediaTypes "a,b,a" = ["a", "b", "a"] ∧
    ∀ l : List String, addMediaTypes l = collapseAdjacent l :=
  ⟨by decide, by decide, addMediaTypes_eq_collapseAdjacent⟩

theorem assembleObjects_ok {Obj : Type} (fetch : String → String → Except String Obj)
    (objf : Row → Obj) :
    ∀ entries : List Row, (∀ v ∈ entries, fetch v.stixid v.modified = .ok (objf v)) →
      assembleObjects fetch entries = .ok (entries.map objf)
  | [], _ => rfl
  | v :: rest, h => by
    have hv := h v (List.mem_cons_self v rest)
    have ih := assembleObjects_ok fetch objf rest
      (fun u hu => h u (List.mem_cons_of_mem v hu))
    unfold assembleObjects
    rw [hv, ih]
    rfl

theorem assembleObjects_fails {Obj : Type} (fetch : String → String → Except String Obj)
    (objf : Row → Obj) (v : Row) (err : String)
    (hv : fetch v.stixid v.modified = .error err) :
    ∀ l1 l2 : List Row, (∀ u ∈ l1, fetch u.stixid u.modified = .ok (objf u)) →
      assembleObjects fetch (l1 ++ v :: l2) = .error err
  | [], l2, _ => by
    show assembleObjects fetch (v :: l2) = .error err
    unfold assembleObjects
    rw [hv]
  | u :: l1, l2, h => by
    have hu := h u (List.mem_cons_self u l1)
    have ih := assembleObjects_fails fetch objf v err hv l1 l2
      (fun x hx => h x (List.mem_cons_of_mem u hx))
    show assembleObjects fetch (u :: (l1 ++ v :: l2)) = .error err
    unfold assembleObjects
    rw [hu, ih]

theorem GetBundle_ok_of {Obj : Type} (fetch : String → String → Except String Obj)
    (objf : Row → Obj) (rows : List Row) (b e m : Int) (entries : List Row)
    (md : QueryReturnData)
    (hO : GetObjectList rows b e m = .ok (entries, md))
    (hf : ∀ v ∈ entries, fetch v.stixid v.modified = .ok (objf v)) :
    GetBundle fetch rows b e m = .ok (entries.map objf, md) := by
  unfold GetBundle
  rw [hO]
  dsimp only
  rw [assembleObjects_ok fetch objf entries hf]

theorem GetBundle_fails_of {Obj : Type} (fetch : String → String → Except String Obj)
    (objf : Row → Obj) (rows : List Row) (b e m : Int) (l1 l2 : List Row) (v : Row)
    (err : String) (md : QueryReturnData)
    (hO : GetObjectList rows b e m = .ok (l1 ++ v :: l2, md))
    (h1 : ∀ u ∈ l1, fetch u.stixid u.modified = .ok (objf u))
    (hv : fetch v.stixid v.modified = .error err) :
    GetBundle fetch rows b e m = .error (.fetchErr err) := by
  unfold GetBundle
  rw [hO]
  dsimp only
  rw [assembleObjects_fails fetch objf v err hv l1 l2 h1]

/-- C8: `GetBundle` fetches the entries of the `GetObjectList` window by
`(stable ID, version)` in list order; when all fetches succeed the bundle's
object order is exactly the entry order, and the first fetch failure aborts
assembly and returns that error with no bundle. -/
theorem GetBundle_order_and_abort {Obj : Type}
    (fetch : String → String → Except String Obj) :
    (∀ (objf : Row → Obj) (entries : List Row),
      (∀ v ∈ entries, fetch v.stixid v.modified = .ok (objf v)) →
      assembleObjects fetch entries = .ok (entries.map objf)) ∧
    (∀ (objf : Row → Obj) (l1 l2 : List Row) (v : Row) (err : String),
      (∀ u ∈ l1, fetch u.stixid u.modified = .ok (objf u)) →
      fetch v.stixid v.modified = .error err →
      assembleObjects fetch (l1 ++ v :: l2) = .error err) ∧
    (∀ (objf : Row → Obj) (rows : List Row) (b e m : Int) (entries : List Row)
      (md : QueryReturnData),
      GetObjectList rows b e m = .ok (entries, md) →
      (∀ v ∈ entries, fetch v.stixid v.modified = .ok (objf v)) →
      GetBundle fetch rows b e m = .ok (entries.map objf, md)) ∧
    (∀ (objf : Row → Obj) (rows : List Row) (b e m : Int) (l1 l2 : List Row)
      (v : Row) (err : String) (md : QueryReturnData),
      GetObjectList rows b e m = .ok (l1 ++ v :: l2, md) →
      (∀ u ∈ l1, fetch u.stixid u.modified = .ok (objf u)) →
      fetch v.stixid v.modified = .error err →
      GetBundle fetch rows b e m = .error (.fetchErr err)) :=
  ⟨fun objf entries h => assembleObjects_ok fetch objf entries h,
   fun objf l1 l2 v err h1 hv => assembleObjects_fails fetch objf v err hv l1 l2 h1,
   fun objf rows b e m entries md hO hf => GetBundle_ok_of fetch objf rows b e m entries md hO hf,
   fun objf rows b e m l1 l2 v err md hO h1 hv =>
     GetBundle_fails_of fetch objf rows b e m l1 l2 v err md hO h1 hv⟩

/-- C8 witness: with the demo object store, assembling `[e1, e3]` yields the
payloads in entry order, and assembling `[e1, e2, e3]` — where fetching `e2`
fails — yields the fetch error and no bundle. -/
theorem GetBundle_order_and_abort_witness :
    assembleObjects fetchDemo [⟨"d1", "i1", "m1", "v1"⟩, ⟨"d3", "i3", "m3", "v3"⟩] =
      .ok (([⟨"d1", "i1", "m1", "v1"⟩, ⟨"d3", "i3", "m3", "v3"⟩] : List Row).map
        (fun v => v.stixid ++ "/" ++ v.modified)) ∧
    assembleObjects fetchDemo
        ([⟨"d1", "i1", "m1", "v1"⟩] ++ ⟨"d2", "i2", "m2", "v2"⟩ :: [⟨"d3", "i3", "m3", "v3"⟩]) =
      .error "object not found" :=
  ⟨(GetBundle_order_and_abort fetchDemo).1 (fun v => v.stixid ++ "/" ++ v.modified) _
    (by decide),
   (GetBundle_order_and_abort fetchDemo).2.1 (fun v => v.stixid ++ "/" ++ v.modified)
    _ _ _ _ (by decide) (by decide)⟩

theorem insertMediaTypes_firstFail (mediaErr : Nat → Option String) (collID : String)
    (err : String) :
    ∀ (medias : List String) (k start : Nat) (db : DBState),
      (∀ j, j < k → mediaErr (start + j) = none) → mediaErr (start + k) = some err →
      k < medias.length →
      insertMediaTypes mediaErr collID start medias db =
        ({ db with mediaRows := db.mediaRows ++
            (medias.take k).map (fun s => (collID, mediaVal s)) }, some err)
  | [], _, _, _, _, _, hlen => absurd hlen (by simp)
  | media :: rest, 0, start, db, _, hk, _ => by
    have hk' : mediaErr start = some err := hk
    unfold insertMediaTypes
    rw [hk']
    simp
  | media :: rest, k + 1, start, db, hfirst, hk, hlen => by
    have h0 : mediaErr start = none := hfirst 0 (Nat.succ_pos k)
    have ih := insertMediaTypes_firstFail mediaErr collID err rest k (start + 1)
      { db with mediaRows := db.mediaRows ++ [(collID, mediaVal media)] }
      (fun j hj => by
        have hs : start + 1 + j = start + (j + 1) := by omega
        rw [hs]; exact hfirst (j + 1) (by omega))
      (by
        have hs : start + 1 + k = start + (k + 1) := by omega
        rw [hs]; exact hk)
      (by simpa using Nat.lt_of_succ_lt_succ hlen)
    unfold insertMediaTypes
    rw [h0, ih]
    simp [List.append_assoc]

/-- C9: when the base collection row insert succeeds and the media-type
insert at position `k` is the first to fail, `addCollection` returns that
error while the store keeps the base row and the `k` media-type rows inserted
before the failure — nothing is rolled back. -/
theorem addCollection_no_rollback (dateAdded : String) (obj : CollectionType)
    (db : DBState) (medias : List String) (k : Nat) (err : String)
    (mediaErr : Nat → Option String)
    (hm : obj.MediaTypes = some medias)
    (hfirst : ∀ j, j < k → mediaErr j = none)
    (hk : mediaErr k = some err) (hklen : k < medias.length) :
    addCollection dateAdded none mediaErr obj db =
      ({ collectionRows := db.collectionRows ++
          [⟨dateAdded, obj.ID, obj.Title, obj.Description, obj.CanRead, obj.CanWrite⟩],
         mediaRows := db.mediaRows ++ (medias.take k).map (fun s => (obj.ID, mediaVal s)) },
       some err) := by
  unfold addCollection
  dsimp only
  rw [hm]
  dsimp only
  rw [insertMediaTypes_firstFail mediaErr obj.ID err medias k 0
    { db with collectionRows := db.collectionRows ++
        [⟨dateAdded, obj.ID, obj.Title, obj.Description, obj.CanRead, obj.CanWrite⟩] }
    (fun j hj => by rw [Nat.zero_add]; exact hfirst j hj)
    (by rw [Nat.zero_add]; exact hk) hklen]

/-- C9 witness: the theorem at a concrete collection whose second media-type
insert fails: the base row and the first media-type row survive. -/
theorem addCollection_no_rollback_witness :
    addCollection "d0" none mediaErrDemo collDemo ⟨[], []⟩ =
      ({ collectionRows := [⟨"d0", "c1", "Title", "Descr", true, false⟩],
         mediaRows := [("c1", mediaVal "text/plain")] },
       some "database execution error inserting collection media type") :=
  addCollection_no_rollback "d0" collDemo ⟨[], []⟩
    ["text/plain", "application/vnd.oasis.stix+json", "text/xml"] 1
    "database execution error inserting collection media type" mediaErrDemo rfl
    (fun j hj => by
      have hj0 : j = 0 := by omega
      subst hj0; rfl)
    rfl (by decide)

end LibStix2


